import Mathlib

/-!
Verification model of the Berlin DOOH device scripts.

This file gives a shallow embedding, in Lean, of the decision logic of the
two core scripts of the repository:

* `src/media_sync.py` — lock manager (`acquire_lock`, `is_process_running`),
  manifest-driven reconciliation (`sync`, `get_playlist_media_names`,
  `generate_playlist_content`, `download_media_file`);
* `src/power_control.py` — schedule evaluation (`decide_power_state`,
  `parse_api_time`) and power actuation (`main`, `get_tv_power_state`,
  `set_tv_power`, `wake_tv_aggressive`).

Embedding conventions:

* Python strings are modelled as `List Char` (`PyStr`); the Python string
  operations used by the scripts (`split`, `strip`, `startswith`,
  `pathlib.Path(...).name`) are re-implemented on that representation.
* Filesystem contents are modelled explicitly: the media directory is the
  finite set of basenames of its regular files (excluding the playlist
  file), the playlist file is an optional list of text lines (the scripts
  always write it as a newline-join of a line list and read it back with
  `splitlines`), and the lock file is represented by its parse result.
* Network and OS effects (HTTP fetches, downloads, deletions, process
  liveness, wall-clock time) are supplied as explicit oracle inputs, so
  every run of the model is a pure function of its inputs.
* Timestamps and times of day are rationals (Python floats and
  `datetime.time` values are totally ordered; `datetime.time` comparison is
  lexicographic on (hour, minute, second, microsecond), which coincides
  with comparison of total seconds since midnight).
-/

namespace Dooh

/-- Python strings, modelled as lists of characters. -/
abbrev PyStr := List Char

/-- The characters removed by Python `str.strip()` with no argument
(ASCII whitespace; the scripts never feed non-ASCII whitespace). -/
def pyIsSpace (c : Char) : Bool :=
  c == ' ' || c == '\t' || c == '\n' || c == '\r' || c == '\x0B' || c == '\x0C'

/-- Python `s.strip()`: remove leading and trailing whitespace. -/
def pyStrip (s : PyStr) : PyStr :=
  ((s.dropWhile pyIsSpace).reverse.dropWhile pyIsSpace).reverse

/-- Python `s.split(sep)` for a one-character separator: always returns at
least one piece; adjacent separators produce empty pieces. -/
def splitOnChar (sep : Char) : PyStr → List PyStr
  | [] => [[]]
  | c :: cs =>
    match splitOnChar sep cs with
    | [] => [[]]
    | p :: ps => if c = sep then [] :: p :: ps else (c :: p) :: ps

/-- Python `s.split("/")[-1]`, as used by `generate_playlist_content`. -/
def pySplitLastSeg (s : PyStr) : PyStr :=
  (splitOnChar '/' s).getLastD []

/-- Python `pathlib.PurePosixPath(s).name`: the last path component, after
dropping empty components and `.` components. -/
def pathName (s : PyStr) : PyStr :=
  ((splitOnChar '/' s).filter (fun p => !(p == [] || p == ['.']))).getLastD []

/-! ## Lock manager (`media_sync.acquire_lock`)

The lock file `/tmp/vlc-sync.lock` holds one line `pid:timestamp`. The
model represents the file by its parse result: `none` when the file is
absent, `some none` when its content fails to parse as `int(pid)` and
`float(ts)` (the except-branch of `acquire_lock`), and
`some (some (pid, ts))` when it parses. Process liveness
(`is_process_running`, a signal-0 probe) is an oracle `alive`. -/

/-- Model of the lock file state. -/
abbrev LockFile := Option (Option (Int × ℚ))

/-- Staleness threshold from `media_sync.py`: `LOCK_STALE_SECONDS = 60 * 60`. -/
def LOCK_STALE_SECONDS : ℚ := 60 * 60

/-- Model of `media_sync.acquire_lock`. Returns the boolean result and the
lock file state after the call. Mirrors the source line by line: a missing
lock is created and acquired; an existing lock is parsed (an unparsable
record gives `old_pid = None`, `old_ts = 0.0`); `age` is `now - old_ts` when
`old_ts` is truthy (nonzero) and `None` otherwise; the lock is stale when
the age is known and exceeds the threshold; if the recorded owner is alive
and the lock is not stale the call returns `False` for both values of
`force` and leaves the record alone; otherwise the old record is deleted
and replaced with a fresh `pid:now` record and the call returns `True`. -/
def acquire_lock (lock : LockFile) (now : ℚ) (alive : Int → Bool)
    (myPid : Int) (force : Bool) : Bool × LockFile :=
  match lock with
  | none => (true, some (some (myPid, now)))
  | some parsed =>
    let old_pid : Option Int := parsed.map Prod.fst
    let old_ts : ℚ := (parsed.map Prod.snd).getD 0
    let age : Option ℚ := if old_ts ≠ 0 then some (now - old_ts) else none
    let is_stale : Bool :=
      match age with
      | some a => decide (a > LOCK_STALE_SECONDS)
      | none => false
    let running : Bool :=
      match old_pid with
      | some p => alive p
      | none => false
    if running && !is_stale then (false, some parsed)
    else
      let _ := force
      (true, some (some (myPid, now)))

end Dooh

namespace Dooh
/-! ## Schedule evaluation (`power_control.parse_api_time`,
`power_control.decide_power_state`)

Times of day are rationals counting seconds since midnight.
`datetime.time` comparison is lexicographic on (hour, minute, second,
microsecond), which agrees with comparison of total seconds, so the window
comparisons of the script translate directly. The current time may carry a
fractional (microsecond) part; parsed schedule times are whole seconds. -/

/-- Numeric value of an ASCII digit, if any. -/
def digitVal (c : Char) : Option Nat :=
  if c.isDigit then some (c.toNat - 48) else none

/-- Model of one numeric field match of `strptime` for `%H`/`%M`/`%S`: one
or two digits whose two-digit value must not exceed `bound` (the regex
alternation `2[0-3]|[0-1]\d|\d`, and similar for minutes and seconds).
When two digits form a value over the bound the regex can only consume one
digit, after which the leftover digit fails the rest of the pattern, so
the model rejects directly; the script sees the same `ValueError`.
Python additionally lets `%S` match 60 or 61, but `datetime` then rejects
the leap second with the same `ValueError`, so the outcome agrees. -/
def parseField (bound : Nat) : PyStr → Option (Nat × PyStr)
  | [] => none
  | [c] => (digitVal c).map (fun d => (d, ([] : PyStr)))
  | c1 :: c2 :: rest =>
    match digitVal c1, digitVal c2 with
    | some d1, some d2 =>
      if 10 * d1 + d2 ≤ bound then some (10 * d1 + d2, rest) else none
    | some d1, none => some (d1, c2 :: rest)
    | none, _ => none

/-- Model of `power_control.parse_api_time`: choose `%H:%M:%S` when the
string has exactly two colons, `%H:%M` otherwise, and fail (the script
raises `ValueError`) on anything the chosen format does not fully match.
Returns seconds since midnight. -/
def parse_api_time (s : PyStr) : Option ℚ :=
  if s.countP (· == ':') = 2 then
    match parseField 23 s with
    | some (h, ':' :: r1) =>
      match parseField 59 r1 with
      | some (m, ':' :: r2) =>
        match parseField 59 r2 with
        | some (sec, []) => some ((3600 * h + 60 * m + sec : ℕ) : ℚ)
        | _ => none
      | _ => none
    | _ => none
  else
    match parseField 23 s with
    | some (h, ':' :: r1) =>
      match parseField 59 r1 with
      | some (m, []) => some ((3600 * h + 60 * m : ℕ) : ℚ)
      | _ => none
    | _ => none

/-- One schedule rule as consumed by `decide_power_state`. `is_active`
models the truthiness of `item.get("is_active", True)` (a missing key
counts as active); `day_of_week` is `none` when the key is missing or not
comparable to an integer; the time fields are `none` when missing. -/
structure SchedRule where
  is_active : Bool
  day_of_week : Option Int
  turn_on_time : Option PyStr
  shut_down_time : Option PyStr
deriving DecidableEq

/-- The schedule value passed to `decide_power_state`: `pyNone` for a
missing/`None` schedule, `nonList` for a JSON value that is not a list,
`rules` for a list. -/
inductive PySched where
  | pyNone : PySched
  | nonList : PySched
  | rules : List SchedRule → PySched
deriving DecidableEq

/-- The window test of `decide_power_state`: a same-day window
(`start <= end`) is on iff `start <= now <= end`; a window that wraps past
midnight is on iff `now >= start or now <= end`. -/
def windowTest (st en t : ℚ) : Bool :=
  if st ≤ en then decide (st ≤ t ∧ t ≤ en)
  else decide (st ≤ t ∨ t ≤ en)

/-- The time fields of a rule as the scan sees them: `none` when either
field is missing or empty (falsy) or fails `parse_api_time` (the script
logs and continues in all three cases), otherwise the parsed pair. -/
def ruleTimes (r : SchedRule) : Option (ℚ × ℚ) :=
  match r.turn_on_time, r.shut_down_time with
  | some s, some e =>
    if s = [] ∨ e = [] then none
    else
      match parse_api_time s, parse_api_time e with
      | some st, some en => some (st, en)
      | _, _ => none
  | _, _ => none

/-- The rule scan of `decide_power_state`: skip inactive rules, rules for
another weekday, and rules whose times are missing or malformed; the first
surviving rule is evaluated with the window test and the scan stops
(`break`). Returns `none` when no rule is found. -/
def scanRules (d : Int) (t : ℚ) : List SchedRule → Option Bool
  | [] => none
  | r :: rest =>
    if r.is_active = false then scanRules d t rest
    else if r.day_of_week ≠ some d then scanRules d t rest
    else
      match ruleTimes r with
      | some p => some (windowTest p.1 p.2 t)
      | none => scanRules d t rest

/-- Model of `power_control.decide_power_state` at weekday `d` (Monday=1)
and time of day `t`: falsy (missing or empty) schedules and non-list
schedules yield `False`; otherwise the first applicable rule decides and
the default with no applicable rule is `False`. -/
def decide_power_state (sched : PySched) (d : Int) (t : ℚ) : Bool :=
  match sched with
  | .pyNone => false
  | .nonList => false
  | .rules l => if l = [] then false else (scanRules d t l).getD false

/-! ## Power actuation (`power_control.main` and the CEC helpers) -/

/-- The TV power state reported by `get_tv_power_state`: parsed from the
`pow 0` query output, or `unknown` when the query fails or the output is
unparsable (`None` in the script). -/
inductive TvState where
  | tvOn : TvState
  | standby : TvState
  | unknown : TvState
deriving DecidableEq

/-- One line sent to the `cec-client` subprocess. -/
inductive CecCmd where
  | powQuery : CecCmd
  | powerOn : CecCmd
  | standbyCmd : CecCmd
  | imageViewOn : CecCmd
  | activeSource : CecCmd
deriving DecidableEq

/-- Model of `set_tv_power`: `on 0` when the argument is `"on"`, else
`standby 0`. -/
def set_tv_power (state : PyStr) : CecCmd :=
  if state = "on".toList then .powerOn else .standbyCmd

/-- Model of `wake_tv_aggressive`: the stronger wake sequence
`on 0`, `tx 10:04` (Image View On), `as` (Active Source). -/
def wake_tv_aggressive : List CecCmd :=
  [.powerOn, .imageViewOn, .activeSource]

/-- Model of the actuation part of `power_control.main`, given the
schedule decision and the TV state reported by `get_tv_power_state`
(which always issues the `pow 0` query first). Desired on: a TV reporting
standby gets the aggressive wake sequence, a TV reporting on gets nothing,
an unknown state gets a plain `on 0`. Desired off: a TV reporting on gets
`standby 0`, anything else gets nothing. -/
def power_main_actuation (should_be_on : Bool) (reported : TvState) :
    List CecCmd :=
  CecCmd.powQuery ::
    (if should_be_on then
      match reported with
      | .standby => wake_tv_aggressive
      | .tvOn => []
      | .unknown => [set_tv_power "on".toList]
    else
      match reported with
      | .tvOn => [set_tv_power "off".toList]
      | _ => [])

/-- Whether a CEC command is a hardware power-on command (a plain `on 0`
or the `on 0` opening the aggressive wake sequence). -/
def isPowerOnCmd : CecCmd → Bool
  | .powerOn => true
  | _ => false

/-- The hardware power commands of a CEC exchange (everything except the
state query). -/
def powerCmds (l : List CecCmd) : List CecCmd :=
  l.filter (fun c => !(c == .powQuery))

/-- A rule the scan of `decide_power_state` passes over: inactive, for a
different weekday, or with missing, empty, or malformed time strings. -/
def ruleSkipped (r : SchedRule) (d : Int) : Prop :=
  r.is_active = false ∨ r.day_of_week ≠ some d ∨ ruleTimes r = none

instance (r : SchedRule) (d : Int) : Decidable (ruleSkipped r d) := by
  unfold ruleSkipped; infer_instance

/-! ## Media reconciliation (`media_sync.sync` and its helpers)

A campaign item contributes only its `media_file` value, modelled as
`Option PyStr` (`none` for a missing key or `None`). The media directory
state is split into the set of basenames of its regular files other than
`playlist.m3u`, and the optional playlist file, kept as its list of text
lines (the script writes the playlist as a newline-join of a line list
with a trailing newline and reads it back with `splitlines`, so as long as
no single line contains a newline — the script never produces one from the
manifests considered here — the two representations agree). -/

/-- Truthiness filter applied by both `sync` and
`generate_playlist_content` to `item.get("media_file")`: a missing key or
an empty string is falsy and the item is skipped. -/
def truthyStr : Option PyStr → Option PyStr
  | some s => if s = [] then none else some s
  | none => none

/-- The `(basename, server_path)` pairs collected by `sync` from the
fetched campaigns, in manifest order, using `Path(mfile).name` for the
basename. -/
def targetPairs (campaigns : List (Option PyStr)) : List (PyStr × PyStr) :=
  campaigns.foldr
    (fun it acc =>
      match truthyStr it with
      | some m => (pathName m, m) :: acc
      | none => acc) []

/-- The target set of basenames (`target_filenames` in `sync`). -/
def target_filenames (campaigns : List (Option PyStr)) : Finset PyStr :=
  ((targetPairs campaigns).map Prod.fst).toFinset

/-- The basename-to-server-path dictionary (`target_files_map` in `sync`):
repeated dict assignment in iteration order means the last pair for a
basename wins. -/
def target_files_map (campaigns : List (Option PyStr)) (fn : PyStr) :
    Option PyStr :=
  (((targetPairs campaigns).reverse).find? (fun pr => pr.1 == fn)).map Prod.snd

/-- The name list collected by `get_playlist_media_names` from the
playlist lines: strip each line, skip empty lines and comment lines
(leading `#`), and take `Path(line).name` of the rest. -/
def playlistNameList (lines : List PyStr) : List PyStr :=
  lines.foldr
    (fun line acc =>
      let l := pyStrip line
      if l = [] then acc
      else if l.head? = some '#' then acc
      else pathName l :: acc) []

/-- Model of `media_sync.get_playlist_media_names`: the empty set when the
playlist file does not exist, else the set of names of its non-comment
lines. -/
def get_playlist_media_names (playlist : Option (List PyStr)) :
    Finset PyStr :=
  match playlist with
  | none => ∅
  | some lines => (playlistNameList lines).toFinset

/-- The absolute media directory path. `BASE_DIR` is resolved from the
location of the installed scripts at run time; the model fixes one
concrete installation prefix, on which none of the verified properties
depend. -/
def MEDIA_DIR : PyStr := "/home/pi/Berlin-dooh-device/media".toList

/-- Python `str(MEDIA_DIR / filename)` for a filename containing no slash:
`pathlib` drops empty and `.` segments, otherwise appends the segment. -/
def pathJoinMedia (fn : PyStr) : PyStr :=
  if fn = [] ∨ fn = ['.'] then MEDIA_DIR else MEDIA_DIR ++ '/' :: fn

/-- The playlist header line. -/
def EXTM3U : PyStr := "#EXTM3U".toList

/-- The metadata line written before each media path line. -/
def extinfLine (m fn : PyStr) : PyStr :=
  "#EXTINF:-1 server-url=\"".toList ++ m ++ "\",name=\"".toList ++ fn
    ++ "\"".toList

/-- The per-item lines of the generated playlist: for each truthy
campaign item a metadata line (using `media_file.split("/")[-1]` as the
display name) followed by the local absolute path line. -/
def playlistBody (campaigns : List (Option PyStr)) : List PyStr :=
  campaigns.foldr
    (fun it acc =>
      match truthyStr it with
      | some m =>
        extinfLine m (pySplitLastSeg m)
          :: pathJoinMedia (pySplitLastSeg m) :: acc
      | none => acc) []

/-- Model of `media_sync.generate_playlist_content` as the list of lines
of the generated document: the header, then the per-item lines. -/
def generate_playlist_content (campaigns : List (Option PyStr)) :
    List PyStr :=
  EXTM3U :: playlistBody campaigns

/-- Outcome of one individual download attempt, as seen by
`download_media_file`: the HTTP open fails before the target file is
created; or reading fails mid-stream after some chunks were written; or
all chunks arrive. -/
inductive DlOutcome where
  | openFail : DlOutcome
  | readFail : List (List Nat) → DlOutcome
  | ok : List (List Nat) → DlOutcome

/-- Model of `media_sync.download_media_file`, tracking the final content
of the target file `{media_dir}/{basename}` (`pre` is its content before
the call, `none` when absent) and the returned boolean. With no
`HOST_URL` the function returns `False` without touching the file. On any
exception the cleanup branch removes the target if it exists — both a
partial file written before a mid-stream failure and a pre-existing file
when the open itself failed — and returns `False`. On success the file
holds exactly the concatenation of the streamed chunks and the function
returns `True`. -/
def download_media_file (hostConfigured : Bool) (pre : Option (List Nat))
    (out : DlOutcome) : Option (List Nat) × Bool :=
  if hostConfigured = false then (pre, false)
  else
    match out with
    | .openFail => (none, false)
    | .readFail _ => (none, false)
    | .ok chunks => (some chunks.flatten, true)

/-- Filesystem actions a reconciliation run can perform, plus the
temp-file-and-rename vocabulary the specification mandates for playlist
publication (the script itself never renames). -/
inductive FsAct where
  | download : PyStr → Bool → FsAct
  | delete : PyStr → Bool → FsAct
  | writePlaylist : List PyStr → FsAct
  | writeTempFile : PyStr → List PyStr → FsAct
  | renameFile : PyStr → PyStr → FsAct
deriving DecidableEq

/-- How one `sync` run ended: lock not acquired (skip, exit 0), manifest
fetch failed (exit 1), the unchanged no-op path, or a full reconciliation
pass. -/
inductive SyncOutcome where
  | skippedLock : SyncOutcome
  | fetchFailed : SyncOutcome
  | unchanged : SyncOutcome
  | synced : SyncOutcome
deriving DecidableEq

/-- The filesystem state a `sync` run touches: the lock file, the listing
of basenames of regular files in the media directory other than
`playlist.m3u` (a duplicate-free list; the set it denotes is
`files.toFinset` — Python iterates sets in unspecified order, and the
model fixes a concrete listing order since the per-file effects commute),
and the playlist file. -/
structure SyncFs where
  lock : LockFile
  files : List PyStr
  playlist : Option (List PyStr)

/-- The oracle inputs of one `sync` run: wall clock and process liveness
for the lock, the manifest fetch result (`Except.error` for any fetch
exception), whether `HOST_URL` is configured, per-server-path download
success, per-file deletion success, and playlist write success. -/
structure SyncEnv where
  now : ℚ
  alive : Int → Bool
  myPid : Int
  fetchResult : Except Unit (List (Option PyStr))
  hostConfigured : Bool
  dlOk : PyStr → Bool
  delOk : PyStr → Bool
  writeOk : Bool

/-- Effect of the download loop of `sync` on the media file set, iterating
over the missing basenames (Python iterates the set in unspecified order;
the per-file effects commute, and the model iterates the canonical list of
the set). A successful download creates `{media_dir}/{basename}`; a failed
one leaves the set unchanged when `HOST_URL` is unset (early return) and
otherwise removes the target (the cleanup branch). -/
def runDownloads (env : SyncEnv) (tmap : PyStr → Option PyStr)
    (files0 : List PyStr) (missing : List PyStr) :
    List PyStr × List FsAct :=
  missing.foldl
    (fun acc fn =>
      match tmap fn with
      | some sp =>
        if env.hostConfigured = false then
          (acc.1, acc.2 ++ [.download sp false])
        else if env.dlOk sp then
          ((if pathName sp ∈ acc.1 then acc.1 else acc.1 ++ [pathName sp]),
            acc.2 ++ [.download sp true])
        else
          (acc.1.filter (fun x => decide (x ≠ pathName sp)),
            acc.2 ++ [.download sp false])
      | none => acc)
    (files0, [])

/-- Effect of the deletion loop of `sync`: each unused file is unlinked;
a failed unlink is logged and skipped. -/
def runDeletes (env : SyncEnv) (files0 : List PyStr)
    (unused : List PyStr) : List PyStr × List FsAct :=
  unused.foldl
    (fun acc fn =>
      if env.delOk fn then
        (acc.1.filter (fun x => decide (x ≠ fn)), acc.2 ++ [.delete fn true])
      else (acc.1, acc.2 ++ [.delete fn false]))
    (files0, [])

/-- Result of one `sync` run: final filesystem state, outcome, and the
filesystem actions performed. -/
structure SyncRes where
  state : SyncFs
  outcome : SyncOutcome
  trace : List FsAct

/-- Model of `media_sync.sync`. Acquire the lock (returning without
cleanup when it is held); fetch the campaigns (exiting 1 on failure, with
the `finally` block removing the lock); compare the target basenames with
the names in the existing playlist and stop on the unchanged path when
they are equal; otherwise download the missing files (missing relative to
the files on disk), delete the unused ones (relative to the pre-download
disk snapshot), and rewrite the playlist in place (a write failure is
logged and skipped). The `finally` block removes the lock on every path
after acquisition. -/
def sync (env : SyncEnv) (force : Bool) (st : SyncFs) : SyncRes :=
  let acq := acquire_lock st.lock env.now env.alive env.myPid force
  if acq.1 = false then ⟨{ st with lock := acq.2 }, .skippedLock, []⟩
  else
    match env.fetchResult with
    | .error _ => ⟨{ st with lock := none }, .fetchFailed, []⟩
    | .ok campaigns =>
      let target := target_filenames campaigns
      let current := get_playlist_media_names st.playlist
      if target = current then ⟨{ st with lock := none }, .unchanged, []⟩
      else
        let targetNames := (targetPairs campaigns).map Prod.fst
        let missing :=
          targetNames.dedup.filter (fun fn => decide (fn ∉ st.files))
        let dl := runDownloads env (target_files_map campaigns) st.files missing
        let unused := st.files.filter (fun fn => decide (fn ∉ targetNames))
        let del := runDeletes env dl.1 unused
        let content := generate_playlist_content campaigns
        let wr : Option (List PyStr) × List FsAct :=
          if env.writeOk then (some content, [.writePlaylist content])
          else (st.playlist, [])
        ⟨{ lock := none, files := del.1, playlist := wr.1 }, .synced,
          dl.2 ++ del.2 ++ wr.2⟩

/-- Modelled from the spec (section 4.4): an atomic playlist publication
writes the document to a sibling temporary file and renames it over the
canonical playlist path. The trace of a run publishes atomically when it
contains such a pair of actions. -/
def atomicPublish (tr : List FsAct) : Prop :=
  ∃ tmp content, FsAct.writeTempFile tmp content ∈ tr ∧
    FsAct.renameFile tmp (pathJoinMedia "playlist.m3u".toList) ∈ tr

/-- A well-formed media path: its basename is an ordinary filename —
`Path(m).name` agrees with `m.split("/")[-1]`, is nonempty, is not `.`,
and contains no whitespace. Every realistic manifest entry (a nonempty
server-relative file path with no trailing slash and no whitespace around
the filename) satisfies this. -/
def wellFormedName (m : PyStr) : Prop :=
  pySplitLastSeg m = pathName m ∧ pathName m ≠ [] ∧
    pathName m ≠ ['.'] ∧ ∀ c ∈ pathName m, pyIsSpace c = false

instance (m : PyStr) : Decidable (wellFormedName m) :=
  decidable_of_iff
    (pySplitLastSeg m = pathName m ∧ pathName m ≠ [] ∧
      pathName m ≠ ['.'] ∧ ∀ c ∈ pathName m, pyIsSpace c = false)
    (by rw [wellFormedName])

/-- A well-formed campaign item: a falsy `media_file` (skipped by the
script), or a truthy one with a well-formed basename. -/
def WellFormedItem (it : Option PyStr) : Prop :=
  match truthyStr it with
  | none => True
  | some m => wellFormedName m

instance (it : Option PyStr) : Decidable (WellFormedItem it) :=
  match h : truthyStr it with
  | none => isTrue (by simp [WellFormedItem, h])
  | some m => decidable_of_iff (wellFormedName m) (by simp [WellFormedItem, h])

/-! ### Concrete scenario inputs used by counterexamples and witnesses -/

/-- A one-item manifest: a single campaign video `campaigns/a.mp4`. -/
def csA : List (Option PyStr) := [some "campaigns/a.mp4".toList]

/-- An empty media directory with no lock and no playlist. -/
def stEmpty : SyncFs := { lock := none, files := [], playlist := none }

/-- A state whose playlist already lists `a.mp4` although the media
directory holds no files at all. -/
def stStalePlaylist : SyncFs :=
  { lock := none, files := [], playlist := some ["a.mp4".toList] }

/-- An environment in which the manifest fetch yields `csA` and every
individual download fails; deletions and the playlist write succeed. -/
def envDlFail : SyncEnv :=
  { now := 0, alive := fun _ => false, myPid := 1,
    fetchResult := .ok csA, hostConfigured := true,
    dlOk := fun _ => false, delOk := fun _ => true, writeOk := true }

/-- The same environment after the transient failure clears: every
download now succeeds. -/
def envDlOk : SyncEnv :=
  { envDlFail with dlOk := fun _ => true }

/-- An environment in which the manifest fetch raises. -/
def envFetchErr : SyncEnv :=
  { envDlFail with fetchResult := .error () }


/-! ## Claim theorems and supporting lemmas -/


/-- C5: a live lock record whose age does not exceed the staleness
threshold is never overridden: `acquire_lock` returns `false` for both
values of `force` and the record is unchanged. When the recorded timestamp
is zero the script computes no age at all and again refuses to override a
live owner, so the conclusion holds for every `ts` with `now - ts` at most
the threshold. -/
theorem C5_live_lock_not_overridden (pid : Int) (ts now : ℚ)
    (alive : Int → Bool) (myPid : Int) (force : Bool)
    (halive : alive pid = true)
    (hage : now - ts ≤ LOCK_STALE_SECONDS) :
    acquire_lock (some (some (pid, ts))) now alive myPid force
      = (false, some (some (pid, ts))) := by
  unfold acquire_lock
  by_cases hts : ts = 0
  · simp [hts, halive]
  · simp [hts, halive, not_lt.mpr hage]

/-- Closed witness for C5 at a concrete input. -/
theorem C5_witness :
    (fun p : Int => p == 7) 7 = true ∧ (100 : ℚ) - 50 ≤ LOCK_STALE_SECONDS ∧
      acquire_lock (some (some (7, 50))) 100 (fun p => p == 7) 9 true
        = (false, some (some (7, 50))) :=
  ⟨by decide, by norm_num [LOCK_STALE_SECONDS],
    C5_live_lock_not_overridden 7 50 100 (fun p => p == 7) 9 true (by decide)
      (by norm_num [LOCK_STALE_SECONDS])⟩

/-- C6 counterexample: a lock record with a live owner and recorded
timestamp `0.0` is stale by the claim (its age, `now - 0`, is far beyond
the one-hour threshold), yet `acquire_lock` returns `false` and leaves the
record in place: the script computes no age for a falsy (zero) timestamp,
so the staleness test never fires and the live owner wins. -/
theorem C6_counterexample :
    (7200 : ℚ) - 0 > LOCK_STALE_SECONDS ∧
      (fun p : Int => p == 5) 5 = true ∧
      acquire_lock (some (some (5, 0))) 7200 (fun p => p == 5) 9 false
        = (false, some (some (5, 0))) ∧
      acquire_lock (some (some (5, 0))) 7200 (fun p => p == 5) 9 true
        = (false, some (some (5, 0))) := by
  refine ⟨by norm_num [LOCK_STALE_SECONDS], by decide, ?_, ?_⟩ <;>
    simp [acquire_lock]

/-- C6 (amended): for every existing lock record that is orphaned (the
recorded owner is not running), unparsable, or stale with a *nonzero*
recorded timestamp (age beyond the one-hour threshold; the script treats a
zero timestamp as having no age), `acquire_lock` deletes the old record,
writes a fresh record with the calling process id and the current
timestamp, and returns `true`. -/
theorem C6_amended_stale_orphaned_or_corrupt_overridden
    (rec : Option (Int × ℚ)) (now : ℚ) (alive : Int → Bool)
    (myPid : Int) (force : Bool)
    (h : rec = none ∨
      ∃ pid ts, rec = some (pid, ts) ∧
        (alive pid = false ∨ (ts ≠ 0 ∧ now - ts > LOCK_STALE_SECONDS))) :
    acquire_lock (some rec) now alive myPid force
      = (true, some (some (myPid, now))) := by
  rcases h with h | ⟨pid, ts, hrec, h⟩
  · subst h; simp [acquire_lock]
  · subst hrec
    rcases h with hdead | ⟨hts, hstale⟩
    · unfold acquire_lock
      by_cases h0 : ts = 0 <;> simp [h0, hdead]
    · unfold acquire_lock
      simp [hts, hstale]

/-- Closed witness for the amended C6 at a concrete orphaned lock. -/
theorem C6_witness :
    acquire_lock (some (some (5, 100))) 200 (fun _ => false) 9 false
      = (true, some (some (9, 200))) :=
  C6_amended_stale_orphaned_or_corrupt_overridden (some (5, 100)) 200
    (fun _ => false) 9 false (Or.inr ⟨5, 100, rfl, Or.inl rfl⟩)

theorem scanRules_cons_skipped (d : Int) (t : ℚ) (r : SchedRule)
    (l : List SchedRule) (hr : ruleSkipped r d) :
    scanRules d t (r :: l) = scanRules d t l := by
  rcases hr with h1 | h2 | h3
  · simp [scanRules, h1]
  · by_cases ha : r.is_active = false
    · simp [scanRules, ha]
    · simp [scanRules, ha, h2]
  · by_cases ha : r.is_active = false
    · simp [scanRules, ha]
    · by_cases hd : r.day_of_week ≠ some d
      · simp [scanRules, ha, hd]
      · simp [scanRules, ha, hd, h3]

theorem scanRules_append_skipped (d : Int) (t : ℚ) (pre l : List SchedRule)
    (h : ∀ r ∈ pre, ruleSkipped r d) :
    scanRules d t (pre ++ l) = scanRules d t l := by
  induction pre with
  | nil => rfl
  | cons r pre ih =>
    have hr : ruleSkipped r d := h r (by simp)
    have hrest : ∀ x ∈ pre, ruleSkipped x d := fun x hx => h x (by simp [hx])
    rw [List.cons_append, scanRules_cons_skipped d t r (pre ++ l) hr, ih hrest]

theorem scanRules_all_skipped (d : Int) (t : ℚ) (l : List SchedRule)
    (h : ∀ r ∈ l, ruleSkipped r d) : scanRules d t l = none := by
  have := scanRules_append_skipped d t l [] h
  simpa using this

/-- C7: for the first active rule matching the current weekday whose times
parse (every earlier rule being skipped as inactive, other-day, or
time-less/malformed), the evaluator returns on iff the current time lies
in the inclusive window when `turn_on_time <= shut_down_time`, and, for an
overnight window (`turn_on_time > shut_down_time`), iff the current time
is at or after the start or at or before the end. -/
theorem C7_first_rule_window_semantics
    (pre : List SchedRule) (r : SchedRule) (rest : List SchedRule)
    (d : Int) (t st en : ℚ)
    (hpre : ∀ p ∈ pre, ruleSkipped p d)
    (hact : r.is_active = true)
    (hday : r.day_of_week = some d)
    (htimes : ruleTimes r = some (st, en)) :
    (st ≤ en →
      (decide_power_state (.rules (pre ++ r :: rest)) d t = true ↔
        (st ≤ t ∧ t ≤ en))) ∧
    (en < st →
      (decide_power_state (.rules (pre ++ r :: rest)) d t = true ↔
        (st ≤ t ∨ t ≤ en))) := by
  have hne : pre ++ r :: rest ≠ [] := by simp
  have hscan : scanRules d t (pre ++ r :: rest)
      = some (windowTest st en t) := by
    rw [scanRules_append_skipped d t pre (r :: rest) hpre]
    simp [scanRules, hact, hday, htimes]
  constructor
  · intro hle
    simp [decide_power_state, hne, hscan, windowTest, hle]
  · intro hlt
    simp [decide_power_state, hne, hscan, windowTest, not_le.mpr hlt]

/-- Closed witness for C7: the overnight rule 23:00:00 to 06:00:00 on
weekday 1, evaluated at 01:00:00 (3600 seconds) on that weekday, yields
on. -/
theorem C7_witness :
    decide_power_state
      (.rules [{ is_active := true, day_of_week := some 1,
                 turn_on_time := some "23:00:00".toList,
                 shut_down_time := some "06:00:00".toList }]) 1 3600 = true := by
  have h := C7_first_rule_window_semantics []
    { is_active := true, day_of_week := some 1,
      turn_on_time := some "23:00:00".toList,
      shut_down_time := some "06:00:00".toList }
    [] 1 3600 82800 21600 (by simp) rfl rfl (by decide)
  exact (h.2 (by norm_num)).mpr (Or.inr (by norm_num))

/-- C8: the evaluator returns off for a missing schedule, a non-list
schedule, and an empty schedule; it returns off when every rule is skipped
(inactive, other weekday, or missing/empty/malformed times — skipping
never raises); a skipped head rule never changes the outcome; and once the
first active, today-matching rule with parseable times is reached, the
rules after it never change the outcome. -/
theorem C8_schedule_defaults_and_first_match (d : Int) (t : ℚ) :
    decide_power_state .pyNone d t = false ∧
    decide_power_state .nonList d t = false ∧
    decide_power_state (.rules []) d t = false ∧
    (∀ l : List SchedRule, (∀ r ∈ l, ruleSkipped r d) →
      decide_power_state (.rules l) d t = false) ∧
    (∀ (r : SchedRule) (l : List SchedRule), ruleSkipped r d →
      decide_power_state (.rules (r :: l)) d t
        = decide_power_state (.rules l) d t) ∧
    (∀ (pre : List SchedRule) (r : SchedRule) (rest rest2 : List SchedRule)
        (p : ℚ × ℚ),
      (∀ q ∈ pre, ruleSkipped q d) → r.is_active = true →
      r.day_of_week = some d → ruleTimes r = some p →
      decide_power_state (.rules (pre ++ r :: rest)) d t
        = decide_power_state (.rules (pre ++ r :: rest2)) d t) := by
  refine ⟨rfl, rfl, rfl, ?_, ?_, ?_⟩
  · intro l hl
    by_cases h : l = []
    · simp [decide_power_state, h]
    · simp [decide_power_state, h, scanRules_all_skipped d t l hl]
  · intro r l hr
    by_cases h : l = []
    · subst h
      have hnone : scanRules d t [r] = none := by
        rw [scanRules_cons_skipped d t r [] hr]; rfl
      simp [decide_power_state, hnone]
    · simp [decide_power_state, h, scanRules_cons_skipped d t r l hr]
  · intro pre r rest rest2 p hpre hact hday htimes
    have h1 : scanRules d t (pre ++ r :: rest)
        = some (windowTest p.1 p.2 t) := by
      rw [scanRules_append_skipped d t pre (r :: rest) hpre]
      simp [scanRules, hact, hday, htimes]
    have h2 : scanRules d t (pre ++ r :: rest2)
        = some (windowTest p.1 p.2 t) := by
      rw [scanRules_append_skipped d t pre (r :: rest2) hpre]
      simp [scanRules, hact, hday, htimes]
    simp [decide_power_state, h1, h2]

/-- Closed witness for C8: a single inactive rule for the right weekday
and time window still yields off. -/
theorem C8_witness :
    decide_power_state
      (.rules [{ is_active := false, day_of_week := some 1,
                 turn_on_time := some "07:00:00".toList,
                 shut_down_time := some "23:00:00".toList }]) 1 43200 = false :=
  (C8_schedule_defaults_and_first_match 1 43200).2.2.2.1
    [{ is_active := false, day_of_week := some 1,
       turn_on_time := some "07:00:00".toList,
       shut_down_time := some "23:00:00".toList }]
    (by intro r hr; simp at hr; subst hr; exact Or.inl rfl)

/-- C3 counterexample: the actuator keeps no persisted last-applied state;
when the CEC state query reports unknown on both runs, two consecutive
invocations with desired on each issue a hardware power-on command, so the
command is issued twice, not exactly once. -/
theorem C3_counterexample :
    (power_main_actuation true .unknown
        ++ power_main_actuation true .unknown).countP isPowerOnCmd = 2 ∧
      ¬ ((power_main_actuation true .unknown
        ++ power_main_actuation true .unknown).countP isPowerOnCmd = 1) := by
  decide

/-- C3 (amended): the power actuator reads no persisted state; on each run
it queries the reported TV power state over CEC and issues no hardware
power command exactly when the reported state already matches the desired
state (reported on for desired on; reported standby or unknown for
desired off). With desired on, each run issues exactly one hardware
power-on command unless the TV reports on, in which case it issues none —
so a second consecutive desired-on run is a no-op iff the TV reports on by
then. -/
theorem C3_amended_query_based_idempotence :
    ∀ (desired : Bool) (reported : TvState),
      (powerCmds (power_main_actuation desired reported) = [] ↔
        ((desired = true ∧ reported = .tvOn) ∨
          (desired = false ∧ reported ≠ .tvOn))) ∧
      ((power_main_actuation desired reported).countP isPowerOnCmd
        = if desired = true ∧ reported ≠ .tvOn then 1 else 0) := by
  intro desired reported
  cases desired <;> cases reported <;> exact ⟨by decide, by decide⟩

/-- C9: on every exit path taken after the lock was acquired — normal
completion of a full pass, the unchanged early return, a manifest-fetch
failure, or the failure-handling path — the `finally` block leaves no lock
record behind. -/
theorem C9_lock_released_on_every_exit (env : SyncEnv) (force : Bool)
    (st : SyncFs)
    (hacq : (acquire_lock st.lock env.now env.alive env.myPid force).1
      = true) :
    (sync env force st).state.lock = none := by
  unfold sync
  cases henv : env.fetchResult with
  | error e => simp [hacq, henv]
  | ok cs =>
    simp only [hacq, henv]
    by_cases hT :
        target_filenames cs = get_playlist_media_names st.playlist <;>
      simp [hT]

/-- Closed witness for C9: with no pre-existing lock the run acquires the
lock, and the final state holds no lock record. -/
theorem C9_witness :
    (acquire_lock stEmpty.lock envFetchErr.now envFetchErr.alive
        envFetchErr.myPid false).1 = true ∧
      (sync envFetchErr false stEmpty).state.lock = none :=
  ⟨by decide, C9_lock_released_on_every_exit envFetchErr false stEmpty
    (by decide)⟩

/-- C10: `download_media_file` leaves no partial file behind: when it
returns `False` the target file is either gone or (only in the
missing-`HOST_URL` early return, which writes nothing) exactly the
pre-existing file; when the stream completes it returns `True` with the
target holding exactly the full response body; and it returns `True` only
for a completed stream. -/
theorem C10_download_failure_cleanup (hostConfigured : Bool)
    (pre : Option (List Nat)) (out : DlOutcome) :
    ((download_media_file hostConfigured pre out).2 = false →
      (download_media_file hostConfigured pre out).1 = none ∨
        (download_media_file hostConfigured pre out).1 = pre) ∧
    (∀ chunks, out = .ok chunks → hostConfigured = true →
      download_media_file hostConfigured pre out
        = (some chunks.flatten, true)) ∧
    ((download_media_file hostConfigured pre out).2 = true →
      ∃ chunks, out = .ok chunks ∧
        (download_media_file hostConfigured pre out).1
          = some chunks.flatten) := by
  cases hostConfigured <;> cases out <;>
    simp [download_media_file]

/-- Closed witness for C10: a successful two-chunk download stores the
concatenated body and returns `True`. -/
theorem C10_witness :
    download_media_file true none (.ok [[1], [2]])
      = (some (List.flatten [[1], [2]]), true) :=
  (C10_download_failure_cleanup true none (.ok [[1], [2]])).2.1
    [[1], [2]] rfl rfl

/-! ### Supporting lemmas: the split, strip, and playlist round trip -/

theorem splitOnChar_ne_nil (sep : Char) (s : PyStr) :
    splitOnChar sep s ≠ [] := by
  induction s with
  | nil => simp [splitOnChar]
  | cons c cs ih =>
    simp only [splitOnChar]
    cases h : splitOnChar sep cs with
    | nil => simp
    | cons p ps => by_cases hc : c = sep <;> simp [hc]

theorem sep_not_mem_of_mem_splitOnChar (sep : Char) (s : PyStr) :
    ∀ p ∈ splitOnChar sep s, sep ∉ p := by
  induction s with
  | nil =>
    intro p hp
    simp [splitOnChar] at hp
    subst hp; simp
  | cons c cs ih =>
    intro p hp
    simp only [splitOnChar] at hp
    cases h : splitOnChar sep cs with
    | nil => exact absurd h (splitOnChar_ne_nil sep cs)
    | cons q qs =>
      rw [h] at hp
      have hp2 : p ∈ if c = sep then [] :: q :: qs else (c :: q) :: qs := hp
      by_cases hc : c = sep
      · rw [if_pos hc] at hp2
        rcases List.mem_cons.mp hp2 with hp3 | hp3
        · subst hp3; simp
        · exact ih p (h ▸ hp3)
      · rw [if_neg hc] at hp2
        rcases List.mem_cons.mp hp2 with hp3 | hp3
        · subst hp3
          intro hmem
          rcases List.mem_cons.mp hmem with he | hmem
          · exact hc he.symm
          · exact ih q (h ▸ List.mem_cons_self q qs) hmem
        · exact ih p (h ▸ List.mem_cons_of_mem q hp3)

theorem splitOnChar_of_not_mem (sep : Char) (s : PyStr) (h : sep ∉ s) :
    splitOnChar sep s = [s] := by
  induction s with
  | nil => rfl
  | cons c cs ih =>
    have hc : ¬ c = sep := fun e => h (e ▸ List.mem_cons_self c cs)
    have hcs : sep ∉ cs := fun hm => h (List.mem_cons_of_mem c hm)
    simp only [splitOnChar, ih hcs]
    simp [hc]

theorem splitOnChar_append_sep (sep : Char) (a b : PyStr) (hb : sep ∉ b) :
    splitOnChar sep (a ++ sep :: b) = splitOnChar sep a ++ [b] := by
  induction a with
  | nil =>
    simp only [List.nil_append, splitOnChar, splitOnChar_of_not_mem sep b hb]
    simp
  | cons c a ih =>
    simp only [List.cons_append, splitOnChar]
    cases h : splitOnChar sep a with
    | nil => exact absurd h (splitOnChar_ne_nil sep a)
    | cons p ps => by_cases hc : c = sep <;> simp [hc, ih, h]

theorem pathName_no_slash (m : PyStr) : '/' ∉ pathName m := by
  unfold pathName
  cases h : (splitOnChar '/' m).filter (fun p => !(p == [] || p == ['.'])) with
  | nil => simp
  | cons q qs =>
    rw [List.getLastD_eq_getLast?,
      List.getLast?_eq_getLast (q :: qs) (by simp), Option.getD_some]
    have hrmem : (q :: qs).getLast (by simp) ∈ q :: qs := List.getLast_mem _
    have hmem2 : (q :: qs).getLast (by simp)
        ∈ List.filter (fun p => !(p == [] || p == ['.']))
          (splitOnChar '/' m) := by
      rw [h]; exact hrmem
    exact sep_not_mem_of_mem_splitOnChar '/' m _
      (List.mem_of_mem_filter hmem2)

theorem pathName_join (fn : PyStr) (h1 : fn ≠ []) (h2 : fn ≠ ['.'])
    (h3 : '/' ∉ fn) : pathName (MEDIA_DIR ++ '/' :: fn) = fn := by
  unfold pathName
  rw [splitOnChar_append_sep '/' MEDIA_DIR fn h3, List.filter_append]
  have hfil : List.filter (fun p => !(p == [] || p == ['.'])) [fn] = [fn] := by
    simp [h1, h2]
  rw [hfil, List.getLastD_eq_getLast?, List.getLast?_concat, Option.getD_some]

theorem dropWhile_eq_self_of_head (p : Char → Bool) (l : PyStr)
    (h : ∀ c, l.head? = some c → p c = false) : l.dropWhile p = l := by
  cases l with
  | nil => rfl
  | cons c cs => simp [List.dropWhile_cons, h c rfl]

theorem dropWhile_append_last (p : Char → Bool) (l : PyStr) (c : Char)
    (hc : p c = false) :
    (l ++ [c]).dropWhile p = l.dropWhile p ++ [c] := by
  induction l with
  | nil => simp [List.dropWhile_cons, hc]
  | cons d l ih =>
    by_cases hd : p d = true
    · simp [List.dropWhile_cons, hd, ih]
    · simp only [Bool.not_eq_true] at hd
      simp [List.dropWhile_cons, hd]

theorem pyStrip_eq_self (l : PyStr)
    (h1 : ∀ c, l.head? = some c → pyIsSpace c = false)
    (h2 : ∀ c, l.getLast? = some c → pyIsSpace c = false) :
    pyStrip l = l := by
  unfold pyStrip
  rw [dropWhile_eq_self_of_head _ l h1,
    dropWhile_eq_self_of_head _ l.reverse
      (fun c hc => h2 c (by rwa [List.head?_reverse] at hc)),
    List.reverse_reverse]

theorem pyStrip_head (c : Char) (l : PyStr) (hc : pyIsSpace c = false) :
    (pyStrip (c :: l)).head? = some c := by
  unfold pyStrip
  rw [dropWhile_eq_self_of_head _ (c :: l)
    (by intro d hd; rw [List.head?_cons, Option.some.injEq] at hd
        subst hd; exact hc)]
  rw [List.head?_reverse]
  have hrev : (c :: l).reverse = l.reverse ++ [c] := by simp
  rw [hrev, dropWhile_append_last _ _ _ hc]
  exact List.getLast?_concat _

theorem playlistNameList_cons_comment (line : PyStr) (rest : List PyStr)
    (h : (pyStrip line).head? = some '#') :
    playlistNameList (line :: rest) = playlistNameList rest := by
  have hne : ¬ pyStrip line = [] := by
    intro e; rw [e] at h; simp at h
  simp [playlistNameList, hne, h]

theorem playlistNameList_cons_name (line : PyStr) (rest : List PyStr)
    (hself : pyStrip line = line) (hne : ¬ line = [])
    (hhash : ¬ line.head? = some '#') :
    playlistNameList (line :: rest)
      = pathName line :: playlistNameList rest := by
  simp [playlistNameList, hself, hne, hhash]

theorem extinfLine_head (m fn : PyStr) :
    (extinfLine m fn).head? = some '#' := by
  unfold extinfLine
  rw [List.append_assoc, List.append_assoc, List.append_assoc,
    List.head?_append_of_ne_nil "#EXTINF:-1 server-url=\"".toList
      (by decide)]
  decide

theorem MEDIA_DIR_eq :
    MEDIA_DIR = '/' :: "home/pi/Berlin-dooh-device/media".toList := by
  decide

/-- Round trip of the playlist body: parsing back the generated document
recovers exactly the target basenames, in manifest order, for well-formed
campaign items. -/
theorem playlistNameList_playlistBody (cs : List (Option PyStr))
    (h : ∀ it ∈ cs, WellFormedItem it) :
    playlistNameList (playlistBody cs) = (targetPairs cs).map Prod.fst := by
  induction cs with
  | nil => rfl
  | cons it cs ih =>
    have hit : WellFormedItem it := h it (List.mem_cons_self it cs)
    have hrest : ∀ x ∈ cs, WellFormedItem x :=
      fun x hx => h x (List.mem_cons_of_mem it hx)
    cases hmt : truthyStr it with
    | none =>
      have hb : playlistBody (it :: cs) = playlistBody cs := by
        simp [playlistBody, hmt]
      have ht : targetPairs (it :: cs) = targetPairs cs := by
        simp [targetPairs, hmt]
      rw [hb, ht, ih hrest]
    | some m =>
      unfold WellFormedItem at hit
      rw [hmt] at hit
      rcases hit with ⟨hsplit, hne, hdot, hws⟩
      have hnoslash : '/' ∉ pathName m := pathName_no_slash m
      have hb : playlistBody (it :: cs)
          = extinfLine m (pySplitLastSeg m)
            :: pathJoinMedia (pySplitLastSeg m) :: playlistBody cs := by
        simp [playlistBody, hmt]
      have ht : targetPairs (it :: cs) = (pathName m, m) :: targetPairs cs := by
        simp [targetPairs, hmt]
      -- the metadata line is a comment
      have hext : (pyStrip (extinfLine m (pySplitLastSeg m))).head? = some '#' := by
        obtain ⟨t, htail⟩ : ∃ t, extinfLine m (pySplitLastSeg m) = '#' :: t := by
          cases hE : extinfLine m (pySplitLastSeg m) with
          | nil =>
            have hh := extinfLine_head m (pySplitLastSeg m)
            rw [hE] at hh
            simp at hh
          | cons a t =>
            have hh := extinfLine_head m (pySplitLastSeg m)
            rw [hE, List.head?_cons, Option.some.injEq] at hh
            exact ⟨t, by rw [hh]⟩
        rw [htail]
        exact pyStrip_head '#' t (by decide)
      -- the path line survives stripping and parses back to the basename
      have hjoin : pathJoinMedia (pySplitLastSeg m) = MEDIA_DIR ++ '/' :: pathName m := by
        rw [hsplit]
        unfold pathJoinMedia
        rw [if_neg (by simp [hne, hdot])]
      have hline1 : (MEDIA_DIR ++ '/' :: pathName m).head? = some '/' := by
        rw [MEDIA_DIR_eq]
        rfl
      have hline2 : (MEDIA_DIR ++ '/' :: pathName m).getLast? = (pathName m).getLast? := by
        rw [List.getLast?_append_of_ne_nil MEDIA_DIR (by simp),
          show ('/' :: pathName m) = ['/'] ++ pathName m from rfl,
          List.getLast?_append_of_ne_nil ['/'] hne]
      have hself : pyStrip (MEDIA_DIR ++ '/' :: pathName m)
          = MEDIA_DIR ++ '/' :: pathName m := by
        apply pyStrip_eq_self
        · intro c hc
          rw [hline1, Option.some.injEq] at hc
          subst hc; decide
        · intro c hc
          rw [hline2] at hc
          rcases List.mem_getLast?_eq_getLast hc with ⟨hne2, hcl⟩
          exact hws c (hcl ▸ List.getLast_mem hne2)
      have hlne : ¬ (MEDIA_DIR ++ '/' :: pathName m) = [] := by
        rw [MEDIA_DIR_eq]; simp
      have hlhash : ¬ (MEDIA_DIR ++ '/' :: pathName m).head? = some '#' := by
        rw [hline1]; simp
      rw [hb, hjoin,
        playlistNameList_cons_comment _ _ hext,
        playlistNameList_cons_name _ _ hself hlne hlhash,
        pathName_join (pathName m) hne hdot hnoslash,
        ih hrest, ht]
      rfl

/-- Round trip at the set level: a freshly generated playlist reads back
as exactly the target basename set. -/
theorem get_playlist_generate (cs : List (Option PyStr))
    (h : ∀ it ∈ cs, WellFormedItem it) :
    get_playlist_media_names (some (generate_playlist_content cs))
      = target_filenames cs := by
  show (playlistNameList (EXTM3U :: playlistBody cs)).toFinset
      = ((targetPairs cs).map Prod.fst).toFinset
  rw [playlistNameList_cons_comment EXTM3U (playlistBody cs) (by decide),
    playlistNameList_playlistBody cs h]

/-- C1 (amended): the reconciliation run takes the unchanged no-op path —
performing no downloads, no deletions, and no playlist write — exactly
when the lock was acquired, the manifest fetch succeeded, and the set of
target basenames equals the set of basenames listed in the existing
playlist file (not the set of files on disk); and a second reconciliation
run immediately after a successful one (one whose playlist write
succeeded) with an unchanged manifest of well-formed items performs zero
downloads, zero deletions, and zero playlist writes. -/
theorem C1_amended_noop_iff_playlist_match :
    (∀ (env : SyncEnv) (force : Bool) (st : SyncFs),
      ((sync env force st).outcome = SyncOutcome.unchanged ↔
        (acquire_lock st.lock env.now env.alive env.myPid force).1 = true ∧
          ∃ cs, env.fetchResult = Except.ok cs ∧
            target_filenames cs = get_playlist_media_names st.playlist)) ∧
    (∀ (env1 env2 : SyncEnv) (f1 f2 : Bool) (st : SyncFs)
        (cs : List (Option PyStr)),
      env1.fetchResult = Except.ok cs → env2.fetchResult = Except.ok cs →
      env1.writeOk = true → (∀ it ∈ cs, WellFormedItem it) →
      (sync env1 f1 st).outcome = SyncOutcome.synced →
      (sync env2 f2 (sync env1 f1 st).state).outcome
          = SyncOutcome.unchanged ∧
        (sync env2 f2 (sync env1 f1 st).state).trace = []) := by
  constructor
  · intro env force st
    rcases Bool.eq_false_or_eq_true
        ((acquire_lock st.lock env.now env.alive env.myPid force).1)
      with hacq | hacq
    · cases henv : env.fetchResult with
      | error e => simp [sync, hacq, henv]
      | ok cs =>
        by_cases hT :
            target_filenames cs = get_playlist_media_names st.playlist <;>
          simp [sync, hacq, henv, hT]
    · simp [sync, hacq]
  · intro env1 env2 f1 f2 st cs h1 h2 hw hgood hsync
    rcases Bool.eq_false_or_eq_true
        ((acquire_lock st.lock env1.now env1.alive env1.myPid f1).1)
      with hacq | hacq
    swap
    · exfalso; simp [sync, hacq] at hsync
    · by_cases hT : target_filenames cs = get_playlist_media_names st.playlist
      · exfalso; simp [sync, hacq, h1, hT] at hsync
      · have hpl : (sync env1 f1 st).state.playlist
            = some (generate_playlist_content cs) := by
          simp [sync, hacq, h1, hT, hw]
        have hlk : (sync env1 f1 st).state.lock = none := by
          simp [sync, hacq, h1, hT]
        obtain ⟨S, hS⟩ : ∃ S : SyncFs, (sync env1 f1 st).state = S := ⟨_, rfl⟩
        rw [hS] at hpl hlk
        rw [hS]
        have hacq2 : acquire_lock S.lock env2.now env2.alive env2.myPid f2
            = (true, some (some (env2.myPid, env2.now))) := by
          rw [hlk]; rfl
        constructor <;>
          simp [sync, hacq2, h2, hpl, get_playlist_generate cs hgood]

/-- Closed witness for the amended C1: the no-op condition holds at a
concrete state whose playlist matches the manifest. -/
theorem C1_witness :
    (sync envDlOk false stStalePlaylist).outcome = SyncOutcome.unchanged :=
  (C1_amended_noop_iff_playlist_match.1 envDlOk false stStalePlaylist).mpr
    ⟨by decide, csA, rfl, by decide⟩

/-- C1 counterexample: a state whose playlist file already lists `a.mp4`
while the media directory holds no files, reconciled against the manifest
`csA` targeting exactly `a.mp4`: the run takes the unchanged no-op path
(no downloads, no deletions, no playlist write) although the target
basename set differs from the on-disk file set — the script compares the
manifest against the playlist content, not against the files on disk. -/
theorem C1_counterexample :
    (sync envDlOk false stStalePlaylist).outcome = .unchanged ∧
      (sync envDlOk false stStalePlaylist).trace = [] ∧
      target_filenames csA ≠ stStalePlaylist.files.toFinset := by
  decide

/-- C2: with manifest `csA` over an empty directory, the first run fails
the only download yet still rewrites the playlist with the full target
list; the second run — even though the download would now succeed and the
file is still missing on disk — takes the unchanged path, attempts no
download, and leaves the directory empty: a failed asset is never
classified as missing again, so repeated cycles do not converge to
on-disk-set == target-set. -/
theorem C2_failed_download_never_retried :
    (sync envDlFail false stEmpty).outcome = .synced ∧
      (sync envDlFail false stEmpty).trace
        = [.download "campaigns/a.mp4".toList false,
           .writePlaylist (generate_playlist_content csA)] ∧
      (sync envDlFail false stEmpty).state.files = [] ∧
      (sync envDlOk false (sync envDlFail false stEmpty).state).outcome
        = .unchanged ∧
      (sync envDlOk false (sync envDlFail false stEmpty).state).trace
        = [] ∧
      (sync envDlOk false (sync envDlFail false stEmpty).state).state.files
        = [] ∧
      "a.mp4".toList ∈ target_filenames csA := by
  refine ⟨by decide, by decide, by decide, by decide, by decide, by decide,
    by decide⟩

/-- C4: the reconciliation pass publishes the playlist with a single
in-place write of the canonical path; its trace contains no temporary-file
write and no rename, so the publication is not atomic in the sense the
specification mandates. -/
theorem C4_playlist_written_in_place_without_rename :
    FsAct.writePlaylist (generate_playlist_content csA)
        ∈ (sync envDlOk false stEmpty).trace ∧
      ¬ atomicPublish (sync envDlOk false stEmpty).trace := by
  constructor
  · decide
  · intro h
    rcases h with ⟨tmp, content, hmem, hren⟩
    have htr : (sync envDlOk false stEmpty).trace
        = [.download "campaigns/a.mp4".toList true,
           .writePlaylist (generate_playlist_content csA)] := by decide
    rw [htr] at hmem
    simp at hmem

end Dooh
